import Mathlib

/-!
Verification development for the lambda-watchtower uptime prober
(src/index.js), shallowly embedded in Lean 4.

Conventions of the embedding:
* A `process.hrtime()` instant is a pair `(seconds, nanoseconds) : Nat × Nat`.
* JavaScript `Math.round` on the non-negative real `s*1000 + n/1e6` is
  `s*1000 + (n + 500000) / 1000000` with `Nat` division (floor of x + 1/2).
* JavaScript truthiness on numbers: `0` is falsy, every other number
  (including `-1`) is truthy; on optional values, `undefined` is falsy.
  `x || y` on numbers is `jsOrInt`, on optional strings `jsOrStr`.
* The event-driven socket handlers are embedded as explicit state
  machines: a state record plus one step function per handler table,
  folded over a list of timestamped events.
-/

/-- A `process.hrtime()` instant: `(seconds, nanoseconds)`. -/
abbrev Instant := Nat × Nat

/-- Total nanosecond value of an instant, used to compare instants. -/
def toNs (t : Instant) : Nat := t.1 * 1000000000 + t.2

/-- `hrToMs` from src/index.js line 8:
`Math.round(timing[0] * 1000 + timing[1] / 1000000)`. -/
def hrToMs (t : Instant) : Nat := t.1 * 1000 + (t.2 + 500000) / 1000000

/-- `hrDiff` from src/index.js line 9: `hrToMs(end) - hrToMs(start)`. -/
def hrDiff (s e : Instant) : Int := (hrToMs e : Int) - (hrToMs s : Int)

/-- JavaScript `x || y` on numbers: `x` when `x` is truthy (nonzero), else `y`. -/
def jsOrInt (x y : Int) : Int := if x = 0 then y else x

/-- `timingsDiff` from src/index.js lines 10-11:
`(timings[key1] && timings[key2] && hrDiff(timings[key1], timings[key2])) || -1`.
A missing key is `undefined` (falsy), so the conjunction is falsy and `|| -1`
yields `-1`; when both keys are present the conjunction evaluates to
`hrDiff`, and `|| -1` turns a zero difference into `-1`. -/
def timingsDiff (a b : Option Instant) : Int :=
  match a, b with
  | some x, some y => jsOrInt (hrDiff x y) (-1)
  | _, _ => -1

/-- The `data.timings` map built by a probe: phase name to instant. -/
structure Timings where
  start : Option Instant := none
  lookup : Option Instant := none
  connect : Option Instant := none
  secureConnect : Option Instant := none
  readable : Option Instant := none
  end_ : Option Instant := none
  close : Option Instant := none
deriving DecidableEq

/-- The derived `data.durations` map: interval name to milliseconds (or -1). -/
structure Durations where
  lookup : Int
  connect : Int
  secureConnect : Int
  readable : Int
  close : Int
  total : Int
deriving DecidableEq

/-- `processTimings` from src/index.js lines 14-23.  The `readable` field is
`timingsDiff(timings, "secureConnect", "readable") || timingsDiff(timings, "connect", "readable")`. -/
def processTimings (t : Timings) : Durations where
  lookup := timingsDiff t.start t.lookup
  connect := timingsDiff t.lookup t.connect
  secureConnect := timingsDiff t.connect t.secureConnect
  readable := jsOrInt (timingsDiff t.secureConnect t.readable)
    (timingsDiff t.connect t.readable)
  close := timingsDiff t.readable t.close
  total := timingsDiff t.start t.close

/-- `timingsDiff` never evaluates to `0`: a zero difference is collapsed
to `-1` by the trailing `|| -1`. -/
theorem timingsDiff_ne_zero (a b : Option Instant) : timingsDiff a b ≠ 0 := by
  cases a with
  | none => simp [timingsDiff]
  | some x =>
    cases b with
    | none => simp [timingsDiff]
    | some y =>
      simp only [timingsDiff, jsOrInt]
      split <;> simp_all

/-- Since `timingsDiff` is never `0` (never falsy), the `||` fallback in the
`readable` line of `processTimings` is dead code. -/
theorem processTimings_readable (t : Timings) :
    (processTimings t).readable = timingsDiff t.secureConnect t.readable := by
  simp only [processTimings, jsOrInt]
  rw [if_neg (timingsDiff_ne_zero t.secureConnect t.readable)]

/-- Rounding each endpoint commutes with the total-nanosecond view. -/
theorem hrToMs_eq_div (t : Instant) : hrToMs t = (toNs t + 500000) / 1000000 := by
  unfold hrToMs toNs
  omega

/-- Timings used as the zero-duration counterexample: `start` and `lookup`
are both recorded and only 0.4 ms apart, which rounds to a 0 ms difference. -/
def tsZeroLookup : Timings := { start := some (0, 0), lookup := some (0, 400000) }

/-- Timings of a plaintext probe: `connect` and `readable` are recorded,
`secureConnect` is absent. -/
def tsNoSecure : Timings :=
  { start := some (0, 0), lookup := some (0, 1000000), connect := some (0, 2000000),
    readable := some (0, 7000000), close := some (0, 9000000) }

/-- C1 counterexample: in `tsZeroLookup` both endpoints of the `lookup`
interval are recorded and the later is at or after the earlier, yet the
computed duration is `-1`, not the rounded difference `0` (and is negative),
refuting the claim as stated. -/
theorem c1_duration_claim_counterexample :
    tsZeroLookup.start = some (0, 0) ∧ tsZeroLookup.lookup = some (0, 400000) ∧
    toNs (0, 0) ≤ toNs (0, 400000) ∧
    hrDiff (0, 0) (0, 400000) = 0 ∧
    (processTimings tsZeroLookup).lookup = -1 := by decide

/-- C1 (amended): every interval of `processTimings` is computed by
`timingsDiff` on its endpoint phases; when both endpoints are recorded the
duration is their rounded-endpoint difference unless that difference is
zero, in which case it is `-1`; when either endpoint is absent it is `-1`;
and whenever the second endpoint is not earlier the duration is either a
positive integer or `-1`. -/
theorem c1_durations_amended :
    (∀ t : Timings,
      (processTimings t).lookup = timingsDiff t.start t.lookup ∧
      (processTimings t).connect = timingsDiff t.lookup t.connect ∧
      (processTimings t).secureConnect = timingsDiff t.connect t.secureConnect ∧
      (processTimings t).readable = timingsDiff t.secureConnect t.readable ∧
      (processTimings t).close = timingsDiff t.readable t.close ∧
      (processTimings t).total = timingsDiff t.start t.close) ∧
    (∀ x y : Instant,
      timingsDiff (some x) (some y) = if hrDiff x y = 0 then -1 else hrDiff x y) ∧
    (∀ b : Option Instant, timingsDiff none b = -1) ∧
    (∀ a : Option Instant, timingsDiff a none = -1) ∧
    (∀ x y : Instant, toNs x ≤ toNs y →
      0 < timingsDiff (some x) (some y) ∨ timingsDiff (some x) (some y) = -1) := by
  refine ⟨?_, ?_, ?_, ?_, ?_⟩
  · intro t
    refine ⟨rfl, rfl, rfl, processTimings_readable t, rfl, rfl⟩
  · intro x y
    rfl
  · intro b
    rfl
  · intro a
    cases a <;> rfl
  · intro x y h
    have hle : hrToMs x ≤ hrToMs y := by
      rw [hrToMs_eq_div, hrToMs_eq_div]
      exact Nat.div_le_div_right (by omega)
    simp only [timingsDiff, jsOrInt]
    split
    · exact Or.inr rfl
    · rename_i hne
      left
      unfold hrDiff at hne ⊢
      omega

/-- Witness for C1 (amended) at a concrete ordered pair of instants. -/
theorem c1_durations_amended_witness :
    toNs (0, 0) ≤ toNs (0, 2000000) ∧
    (0 < timingsDiff (some ((0 : Nat), (0 : Nat))) (some ((0 : Nat), (2000000 : Nat))) ∨
      timingsDiff (some ((0 : Nat), (0 : Nat))) (some ((0 : Nat), (2000000 : Nat))) = -1) :=
  ⟨by decide, c1_durations_amended.2.2.2.2 (0, 0) (0, 2000000) (by decide)⟩

/-- C2: the `readable` fallback is dead code.  `timingsDiff` returns `-1`
(truthy in JavaScript) when `secureConnect` is absent, so
`(processTimings t).readable` always equals the secureConnect-baseline
difference and the `connect` fallback never fires: on `tsNoSecure`, where
`connect` and `readable` are recorded and `secureConnect` is absent, the
finalized `readable` duration is `-1` although the connect-to-readable
difference is `5` ms. -/
theorem c2_readable_fallback_dead :
    (∀ t : Timings, (processTimings t).readable = timingsDiff t.secureConnect t.readable) ∧
    tsNoSecure.secureConnect = none ∧
    tsNoSecure.connect = some (0, 2000000) ∧
    tsNoSecure.readable = some (0, 7000000) ∧
    timingsDiff tsNoSecure.connect tsNoSecure.readable = 5 ∧
    (processTimings tsNoSecure).readable = -1 :=
  ⟨processTimings_readable, by decide, by decide, by decide, by decide, by decide⟩

/-- The batching accumulator step inside `sendData` (src/index.js lines 32-40):
`let arr = acc[acc.length - 1]; if (!arr || arr.length >= 10) acc.push([metric])
else arr.push(metric)`. -/
def chunkStep {α : Type} (acc : List (List α)) (m : α) : List (List α) :=
  match acc.getLast? with
  | none => acc ++ [[m]]
  | some arr =>
    if arr.length ≥ 10 then acc ++ [[m]] else acc.dropLast ++ [arr ++ [m]]

/-- The batch list built by `sendData` before mapping `putMetricData` over it:
`data.reduce(..., [])`. -/
def sendDataBatches {α : Type} (l : List α) : List (List α) := l.foldl chunkStep []

/-- A list decomposes around the element reported by `getLast?`. -/
theorem getLast?_decomp {α : Type} {l : List α} {a : α} (h : l.getLast? = some a) :
    l = l.dropLast ++ [a] := by
  have hne : l ≠ [] := by
    intro he
    rw [he] at h
    simp at h
  have := List.getLast?_eq_getLast l hne
  rw [this] at h
  have ha : l.getLast hne = a := by injection h
  rw [← ha]
  exact (List.dropLast_append_getLast hne).symm

/-- Flattening a list of groups that all have length 10. -/
theorem flatten_length_of_full {α : Type} :
    ∀ L : List (List α), (∀ g ∈ L, g.length = 10) → L.flatten.length = 10 * L.length := by
  intro L
  induction L with
  | nil => intro _; rfl
  | cons g gs ih =>
    intro h
    simp only [List.flatten_cons, List.length_append, List.length_cons]
    rw [h g (List.mem_cons_self g gs), ih (fun x hx => h x (List.mem_cons_of_mem g hx))]
    ring

/-- The invariant the batching fold maintains: the groups flatten back to the
processed prefix, every group has between 1 and 10 records, and every group
except possibly the last has exactly 10. -/
def ChunkInv {α : Type} (p : List α) (acc : List (List α)) : Prop :=
  acc.flatten = p ∧
  (∀ g ∈ acc, 1 ≤ g.length ∧ g.length ≤ 10) ∧
  (∀ g ∈ acc.dropLast, g.length = 10)

theorem chunkStep_inv {α : Type} {p : List α} {acc : List (List α)} (m : α)
    (h : ChunkInv p acc) : ChunkInv (p ++ [m]) (chunkStep acc m) := by
  obtain ⟨hflat, hbound, hfull⟩ := h
  unfold chunkStep
  cases hlast : acc.getLast? with
  | none =>
    have hnil : acc = [] := List.getLast?_eq_none_iff.mp hlast
    subst hnil
    simp at hflat
    subst hflat
    refine ⟨by simp, ?_, by simp⟩
    intro g hg
    simp at hg
    subst hg
    simp
  | some arr =>
    have hdec : acc = acc.dropLast ++ [arr] := getLast?_decomp hlast
    have harrmem : arr ∈ acc := by
      rw [hdec]
      exact List.mem_append_right _ (List.mem_singleton.mpr rfl)
    by_cases hge : arr.length ≥ 10
    · simp only [if_pos hge]
      refine ⟨by simp [hflat], ?_, ?_⟩
      · intro g hg
        rcases List.mem_append.mp hg with hg | hg
        · exact hbound g hg
        · simp at hg
          subst hg
          simp
      · intro g hg
        rw [List.dropLast_concat] at hg
        rcases List.mem_append.mp (hdec ▸ hg) with hg' | hg'
        · exact hfull g hg'
        · simp at hg'
          rw [hg']
          exact Nat.le_antisymm ((hbound arr harrmem).2) hge
    · simp only [if_neg hge]
      push_neg at hge
      constructor
      · rw [List.flatten_append, ← hflat]
        conv_rhs => rw [hdec]
        simp
      constructor
      · intro g hg
        rcases List.mem_append.mp hg with hg | hg
        · exact hbound g (hdec ▸ List.mem_append_left _ hg)
        · simp at hg
          subst hg
          have := (hbound arr harrmem).1
          simp only [List.length_append, List.length_cons, List.length_nil]
          omega
      · intro g hg
        rw [List.dropLast_concat] at hg
        exact hfull g hg

theorem foldl_chunkStep_inv {α : Type} :
    ∀ (l p : List α) (acc : List (List α)), ChunkInv p acc →
      ChunkInv (p ++ l) (l.foldl chunkStep acc) := by
  intro l
  induction l with
  | nil => intro p acc h; simpa using h
  | cons m rest ih =>
    intro p acc h
    have := ih (p ++ [m]) (chunkStep acc m) (chunkStep_inv m h)
    simpa using this

/-- C5: `sendData`'s reduce partitions the metric list into consecutive
groups: flattening the groups gives back the input (so order is preserved),
every group holds at most 10 records, and the number of groups is
`ceil(totalRecords / 10)`. -/
theorem c5_sendData_batches (α : Type) (l : List α) :
    (sendDataBatches l).flatten = l ∧
    (∀ g ∈ sendDataBatches l, g.length ≤ 10) ∧
    (sendDataBatches l).length = (l.length + 9) / 10 := by
  have hinv : ChunkInv l (sendDataBatches l) := by
    have := foldl_chunkStep_inv l [] ([] : List (List α))
      ⟨rfl, by intro g hg; simp at hg, by intro g hg; simp at hg⟩
    simpa [sendDataBatches] using this
  obtain ⟨hflat, hbound, hfull⟩ := hinv
  refine ⟨hflat, fun g hg => (hbound g hg).2, ?_⟩
  cases hlast : (sendDataBatches l).getLast? with
  | none =>
    have hnil : sendDataBatches l = [] := List.getLast?_eq_none_iff.mp hlast
    rw [hnil] at hflat
    simp at hflat
    subst hflat
    rw [hnil]
    simp
  | some last =>
    have hdec : sendDataBatches l = (sendDataBatches l).dropLast ++ [last] :=
      getLast?_decomp hlast
    have hlastmem : last ∈ sendDataBatches l := by
      rw [hdec]
      exact List.mem_append_right _ (List.mem_singleton.mpr rfl)
    have hlen : l.length = 10 * (sendDataBatches l).dropLast.length + last.length := by
      conv_lhs => rw [← hflat]
      conv_lhs => rw [hdec]
      rw [List.flatten_append]
      simp only [List.length_append, List.flatten_cons, List.flatten_nil, List.append_nil]
      rw [flatten_length_of_full _ hfull]
    have hacc : (sendDataBatches l).length = (sendDataBatches l).dropLast.length + 1 := by
      conv_lhs => rw [hdec]
      simp
    have hb := hbound last hlastmem
    omega

/-- Witness for C5 group membership at a concrete input of 23 records. -/
theorem c5_sendData_batches_witness :
    List.range 10 ∈ sendDataBatches (List.range 23) ∧ (List.range 10).length ≤ 10 :=
  ⟨by decide, (c5_sendData_batches Nat (List.range 23)).2.1 (List.range 10) (by decide)⟩

/-- Settlement of a probe's `new Promise`: resolved or rejected. -/
inductive Settle where
  | resolved
  | rejected
deriving DecidableEq

/-- A promise settles at most once: later calls to `resolve`/`reject` are
no-ops on the settlement (though the resolved object may still be mutated). -/
def promiseSettle (cur : Option Settle) (s : Settle) : Option Settle :=
  match cur with
  | some old => some old
  | none => some s

/-- Socket events a `handlers.port` probe can receive (src/index.js 290-330). -/
inductive PortEvent where
  | lookup
  | connect
  | dataEv
  | endEv
  | errorEv
  | timeoutEv
  | closeEv
deriving DecidableEq

/-- The mutable `data` object of a port probe together with its socket and
promise bookkeeping. -/
structure PortState where
  timings : Timings := {}
  statusCode : Option Int := none
  durations : Option Durations := none
  destroyed : Bool := false
  ended : Bool := false
  settled : Option Settle := none
deriving DecidableEq

/-- Common body of the `error`/`timeout`/`close` handlers of `handlers.port`:
stamp `timings.close`, compute `durations`, set the status code, destroy the
socket and call `resolve(data)`. -/
def portTerminal (s : PortState) (t : Instant) (code : Int) : PortState :=
  let tm := { s.timings with close := some t }
  { s with
    timings := tm, durations := some (processTimings tm), statusCode := some code,
    destroyed := true, settled := promiseSettle s.settled .resolved }

/-- One event handler dispatch of `handlers.port` (src/index.js 290-330). -/
def stepPort (s : PortState) (e : PortEvent × Instant) : PortState :=
  match e.1 with
  | .lookup => { s with timings := { s.timings with lookup := some e.2 } }
  | .connect => { s with timings := { s.timings with connect := some e.2 } }
  | .dataEv => { s with timings := { s.timings with readable := some e.2 }, ended := true }
  | .endEv => { s with timings := { s.timings with end_ := some e.2 } }
  | .errorEv => portTerminal s e.2 (-1)
  | .timeoutEv => portTerminal s e.2 (-1)
  | .closeEv => portTerminal s e.2 0

/-- Initial probe state: `exports.handler` stamps `timings.start` at launch. -/
def initProbe (t0 : Instant) : PortState := { timings := { start := some t0 } }

/-- Fold the port handlers over a sequence of timestamped socket events. -/
def runPortFrom (s : PortState) (evs : List (PortEvent × Instant)) : PortState :=
  evs.foldl stepPort s

/-- A whole port-probe execution from launch. -/
def runPort (t0 : Instant) (evs : List (PortEvent × Instant)) : PortState :=
  runPortFrom (initProbe t0) evs

/-- The line `handlers.smtp` writes to the socket on a `220` greeting. -/
def ehloLine : String := "EHLO lambda-watchtower.test\r\n"

/-- The test `smtpdata.match(/^220/)`: the chunk begins with the given
response code.  (Char-list prefix test, which the kernel can evaluate.) -/
def matchesCode (code chunk : String) : Bool := code.data.isPrefixOf chunk.data

/-- Socket events a `handlers.smtp` probe can receive (src/index.js 332-381).
A `data` event carries the received chunk. -/
inductive SmtpEvent where
  | lookup
  | connect
  | dataEv (chunk : String)
  | endEv
  | errorEv
  | timeoutEv
  | closeEv
deriving DecidableEq

/-- The mutable state of an smtp probe: the `data` object, the
`smtpFlags.greeting` guard, and everything written to the socket. -/
structure SmtpState where
  timings : Timings := {}
  statusCode : Option Int := none
  durations : Option Durations := none
  destroyed : Bool := false
  greeting : Bool := false
  writes : List String := []
  ended : Bool := false
  settled : Option Settle := none
deriving DecidableEq

/-- Common body of the `error`/`timeout`/`close` handlers of `handlers.smtp`. -/
def smtpTerminal (s : SmtpState) (t : Instant) (code : Int) : SmtpState :=
  let tm := { s.timings with close := some t }
  { s with
    timings := tm, durations := some (processTimings tm), statusCode := some code,
    destroyed := true, settled := promiseSettle s.settled .resolved }

/-- One event handler dispatch of `handlers.smtp` (src/index.js 332-381).
The `data` handler is: `if (smtpdata.match(/^220/) && smtpFlags.greeting !== true)
{ socket.write("EHLO ...\r\n"); smtpFlags.greeting = true } else if
(smtpdata.match(/^250/)) { data.timings.readable = hrtime(); socket.end() }`. -/
def stepSmtp (s : SmtpState) (e : SmtpEvent × Instant) : SmtpState :=
  match e.1 with
  | .lookup => { s with timings := { s.timings with lookup := some e.2 } }
  | .connect => { s with timings := { s.timings with connect := some e.2 } }
  | .dataEv chunk =>
    if matchesCode "220" chunk && !s.greeting then
      { s with writes := s.writes ++ [ehloLine], greeting := true }
    else if matchesCode "250" chunk then
      { s with timings := { s.timings with readable := some e.2 }, ended := true }
    else s
  | .endEv => { s with timings := { s.timings with end_ := some e.2 } }
  | .errorEv => smtpTerminal s e.2 (-1)
  | .timeoutEv => smtpTerminal s e.2 (-1)
  | .closeEv => smtpTerminal s e.2 0

/-- Initial smtp probe state with the launch timestamp. -/
def initSmtp (t0 : Instant) : SmtpState := { timings := { start := some t0 } }

/-- Fold the smtp handlers over a sequence of timestamped socket events. -/
def runSmtpFrom (s : SmtpState) (evs : List (SmtpEvent × Instant)) : SmtpState :=
  evs.foldl stepSmtp s

/-- A whole smtp-probe execution from launch. -/
def runSmtp (t0 : Instant) (evs : List (SmtpEvent × Instant)) : SmtpState :=
  runSmtpFrom (initSmtp t0) evs

/-- Events a `handlers.http` probe can receive (src/index.js 259-285): the
response callback (carrying the HTTP status), the `once`-guarded response
stream events, the socket phase events, and the terminal `close`/`error`. -/
inductive HttpEvent where
  | responseEv (code : Int)
  | readableEv
  | endEv
  | lookup
  | connect
  | secureConnect
  | errorEv
  | closeEv
deriving DecidableEq

/-- The mutable state of an http probe, including the `setTimeout` handle
bookkeeping (`timerCleared` records that `clearTimeout` ran). -/
structure HttpState where
  timings : Timings := {}
  statusCode : Option Int := none
  durations : Option Durations := none
  timerCleared : Bool := false
  settled : Option Settle := none
deriving DecidableEq

/-- One event handler dispatch of `handlers.http` (src/index.js 259-285).
`readable`/`end` are attached with `response.once`, so only the first
occurrence records a timestamp; the error handler keeps an already-captured
status and otherwise sets it to `0`. -/
def stepHttp (s : HttpState) (e : HttpEvent × Instant) : HttpState :=
  match e.1 with
  | .responseEv code => { s with statusCode := some code }
  | .readableEv =>
    match s.timings.readable with
    | some _ => s
    | none => { s with timings := { s.timings with readable := some e.2 } }
  | .endEv =>
    match s.timings.end_ with
    | some _ => s
    | none => { s with timings := { s.timings with end_ := some e.2 } }
  | .lookup => { s with timings := { s.timings with lookup := some e.2 } }
  | .connect => { s with timings := { s.timings with connect := some e.2 } }
  | .secureConnect => { s with timings := { s.timings with secureConnect := some e.2 } }
  | .errorEv =>
    let tm := { s.timings with close := some e.2 }
    { s with
      timings := tm, durations := some (processTimings tm),
      statusCode := match s.statusCode with | some c => some c | none => some 0,
      timerCleared := true, settled := promiseSettle s.settled .resolved }
  | .closeEv =>
    let tm := { s.timings with close := some e.2 }
    { s with
      timings := tm, durations := some (processTimings tm),
      timerCleared := true, settled := promiseSettle s.settled .resolved }

/-- Initial http probe state with the launch timestamp. -/
def initHttp (t0 : Instant) : HttpState := { timings := { start := some t0 } }

/-- Fold the http handlers over a sequence of timestamped events. -/
def runHttpFrom (s : HttpState) (evs : List (HttpEvent × Instant)) : HttpState :=
  evs.foldl stepHttp s

/-- A whole http-probe execution from launch. -/
def runHttp (t0 : Instant) (evs : List (HttpEvent × Instant)) : HttpState :=
  runHttpFrom (initHttp t0) evs

theorem runPortFrom_append_single (s : PortState) (evs : List (PortEvent × Instant))
    (e : PortEvent × Instant) :
    runPortFrom s (evs ++ [e]) = stepPort (runPortFrom s evs) e := by
  simp [runPortFrom, List.foldl_append]

theorem runSmtpFrom_append_single (s : SmtpState) (evs : List (SmtpEvent × Instant))
    (e : SmtpEvent × Instant) :
    runSmtpFrom s (evs ++ [e]) = stepSmtp (runSmtpFrom s evs) e := by
  simp [runSmtpFrom, List.foldl_append]

theorem runHttpFrom_append_single (s : HttpState) (evs : List (HttpEvent × Instant))
    (e : HttpEvent × Instant) :
    runHttpFrom s (evs ++ [e]) = stepHttp (runHttpFrom s evs) e := by
  simp [runHttpFrom, List.foldl_append]

/-- C3: for port and smtp probes, whichever state the probe reached, a
terminal `error` or `timeout` event leaves `statusCode = -1` with the socket
destroyed, and a terminal clean `close` leaves `statusCode = 0`. -/
theorem c3_port_smtp_terminal_status :
    (∀ (s : PortState) (evs : List (PortEvent × Instant)) (t : Instant),
      (runPortFrom s (evs ++ [(.errorEv, t)])).statusCode = some (-1) ∧
      (runPortFrom s (evs ++ [(.errorEv, t)])).destroyed = true ∧
      (runPortFrom s (evs ++ [(.timeoutEv, t)])).statusCode = some (-1) ∧
      (runPortFrom s (evs ++ [(.timeoutEv, t)])).destroyed = true ∧
      (runPortFrom s (evs ++ [(.closeEv, t)])).statusCode = some 0) ∧
    (∀ (s : SmtpState) (evs : List (SmtpEvent × Instant)) (t : Instant),
      (runSmtpFrom s (evs ++ [(.errorEv, t)])).statusCode = some (-1) ∧
      (runSmtpFrom s (evs ++ [(.errorEv, t)])).destroyed = true ∧
      (runSmtpFrom s (evs ++ [(.timeoutEv, t)])).statusCode = some (-1) ∧
      (runSmtpFrom s (evs ++ [(.timeoutEv, t)])).destroyed = true ∧
      (runSmtpFrom s (evs ++ [(.closeEv, t)])).statusCode = some 0) := by
  constructor
  · intro s evs t
    rw [runPortFrom_append_single, runPortFrom_append_single, runPortFrom_append_single]
    exact ⟨rfl, rfl, rfl, rfl, rfl⟩
  · intro s evs t
    rw [runSmtpFrom_append_single, runSmtpFrom_append_single, runSmtpFrom_append_single]
    exact ⟨rfl, rfl, rfl, rfl, rfl⟩

/-- A step function is settlement-disciplined when each event either keeps
the settlement as it is or settles the promise by resolving it. -/
def SettleStep {σ ε : Type} (settledOf : σ → Option Settle) (step : σ → ε → σ) : Prop :=
  ∀ s e, settledOf (step s e) = settledOf s ∨
    settledOf (step s e) = promiseSettle (settledOf s) .resolved

theorem foldl_never_rejected {σ ε : Type} {settledOf : σ → Option Settle} {step : σ → ε → σ}
    (hd : SettleStep settledOf step) :
    ∀ (evs : List ε) (s : σ), settledOf s ≠ some .rejected →
      settledOf (evs.foldl step s) ≠ some .rejected := by
  intro evs
  induction evs with
  | nil => intro s h; exact h
  | cons e rest ih =>
    intro s h
    apply ih
    rcases hd s e with he | he
    · rw [he]; exact h
    · rw [he]
      cases hc : settledOf s with
      | none => simp [promiseSettle]
      | some x =>
        simp only [promiseSettle]
        rw [hc] at h
        exact h

theorem foldl_settled_stable {σ ε : Type} {settledOf : σ → Option Settle} {step : σ → ε → σ}
    (hd : SettleStep settledOf step) :
    ∀ (evs : List ε) (s : σ) (x : Settle), settledOf s = some x →
      settledOf (evs.foldl step s) = some x := by
  intro evs
  induction evs with
  | nil => intro s x h; exact h
  | cons e rest ih =>
    intro s x h
    apply ih
    rcases hd s e with he | he
    · rw [he]; exact h
    · rw [he, h]; rfl

theorem stepPort_settleStep : SettleStep PortState.settled stepPort := by
  intro s e
  obtain ⟨k, t⟩ := e
  cases k <;> simp [stepPort, portTerminal]

theorem stepSmtp_settleStep : SettleStep SmtpState.settled stepSmtp := by
  intro s e
  obtain ⟨k, t⟩ := e
  cases k with
  | dataEv c =>
    simp only [stepSmtp]
    split
    · left; rfl
    · split
      · left; rfl
      · left; rfl
  | lookup => left; rfl
  | connect => left; rfl
  | endEv => left; rfl
  | errorEv => right; rfl
  | timeoutEv => right; rfl
  | closeEv => right; rfl

theorem stepHttp_settleStep : SettleStep HttpState.settled stepHttp := by
  intro s e
  obtain ⟨k, t⟩ := e
  cases k with
  | responseEv c => left; rfl
  | readableEv =>
    simp only [stepHttp]
    cases s.timings.readable <;> simp
  | endEv =>
    simp only [stepHttp]
    cases s.timings.end_ <;> simp
  | lookup => left; rfl
  | connect => left; rfl
  | secureConnect => left; rfl
  | errorEv => right; rfl
  | closeEv => right; rfl

theorem promiseSettle_resolved_of_ne (cur : Option Settle) (h : cur ≠ some .rejected) :
    promiseSettle cur .resolved = some .resolved := by
  cases hc : cur with
  | none => rfl
  | some x =>
    cases x with
    | resolved => rfl
    | rejected => rw [hc] at h; exact absurd rfl h

/-- C4: for each of the three probe handlers, over any event sequence the
probe promise is never rejected; once settled, the settlement never changes
(so the promise resolves exactly once); appending any terminal event settles
the promise as resolved with the durations computed (and, for port/smtp, the
status code set); and an http `error` event arriving while no response
status has been captured sets `statusCode = 0`. -/
theorem c4_probe_resolution :
    (∀ (t0 : Instant) (evs : List (HttpEvent × Instant)),
      (runHttp t0 evs).settled ≠ some .rejected) ∧
    (∀ (t0 : Instant) (evs : List (PortEvent × Instant)),
      (runPort t0 evs).settled ≠ some .rejected) ∧
    (∀ (t0 : Instant) (evs : List (SmtpEvent × Instant)),
      (runSmtp t0 evs).settled ≠ some .rejected) ∧
    (∀ (t0 : Instant) (evs more : List (HttpEvent × Instant)) (x : Settle),
      (runHttp t0 evs).settled = some x → (runHttp t0 (evs ++ more)).settled = some x) ∧
    (∀ (t0 : Instant) (evs more : List (PortEvent × Instant)) (x : Settle),
      (runPort t0 evs).settled = some x → (runPort t0 (evs ++ more)).settled = some x) ∧
    (∀ (t0 : Instant) (evs more : List (SmtpEvent × Instant)) (x : Settle),
      (runSmtp t0 evs).settled = some x → (runSmtp t0 (evs ++ more)).settled = some x) ∧
    (∀ (t0 : Instant) (evs : List (HttpEvent × Instant)) (t : Instant),
      (runHttp t0 (evs ++ [(.closeEv, t)])).settled = some .resolved ∧
      (runHttp t0 (evs ++ [(.closeEv, t)])).durations ≠ none ∧
      (runHttp t0 (evs ++ [(.errorEv, t)])).settled = some .resolved ∧
      (runHttp t0 (evs ++ [(.errorEv, t)])).durations ≠ none ∧
      (runHttp t0 (evs ++ [(.errorEv, t)])).statusCode ≠ none) ∧
    (∀ (t0 : Instant) (evs : List (PortEvent × Instant)) (t : Instant)
      (k : PortEvent), k = .errorEv ∨ k = .timeoutEv ∨ k = .closeEv →
      (runPort t0 (evs ++ [(k, t)])).settled = some .resolved ∧
      (runPort t0 (evs ++ [(k, t)])).durations ≠ none ∧
      (runPort t0 (evs ++ [(k, t)])).statusCode ≠ none) ∧
    (∀ (t0 : Instant) (evs : List (SmtpEvent × Instant)) (t : Instant)
      (k : SmtpEvent), k = .errorEv ∨ k = .timeoutEv ∨ k = .closeEv →
      (runSmtp t0 (evs ++ [(k, t)])).settled = some .resolved ∧
      (runSmtp t0 (evs ++ [(k, t)])).durations ≠ none ∧
      (runSmtp t0 (evs ++ [(k, t)])).statusCode ≠ none) ∧
    (∀ (t0 : Instant) (evs : List (HttpEvent × Instant)) (t : Instant),
      (runHttp t0 evs).statusCode = none →
      (runHttp t0 (evs ++ [(.errorEv, t)])).statusCode = some 0) := by
  have hhttp : ∀ (t0 : Instant) (evs : List (HttpEvent × Instant)),
      (runHttp t0 evs).settled ≠ some .rejected := by
    intro t0 evs
    exact foldl_never_rejected stepHttp_settleStep evs (initHttp t0) (by simp [initHttp])
  have hport : ∀ (t0 : Instant) (evs : List (PortEvent × Instant)),
      (runPort t0 evs).settled ≠ some .rejected := by
    intro t0 evs
    exact foldl_never_rejected stepPort_settleStep evs (initProbe t0) (by simp [initProbe])
  have hsmtp : ∀ (t0 : Instant) (evs : List (SmtpEvent × Instant)),
      (runSmtp t0 evs).settled ≠ some .rejected := by
    intro t0 evs
    exact foldl_never_rejected stepSmtp_settleStep evs (initSmtp t0) (by simp [initSmtp])
  refine ⟨hhttp, hport, hsmtp, ?_, ?_, ?_, ?_, ?_, ?_, ?_⟩
  · intro t0 evs more x h
    have := foldl_settled_stable stepHttp_settleStep more (runHttp t0 evs) x h
    simpa [runHttp, runHttpFrom, List.foldl_append] using this
  · intro t0 evs more x h
    have := foldl_settled_stable stepPort_settleStep more (runPort t0 evs) x h
    simpa [runPort, runPortFrom, List.foldl_append] using this
  · intro t0 evs more x h
    have := foldl_settled_stable stepSmtp_settleStep more (runSmtp t0 evs) x h
    simpa [runSmtp, runSmtpFrom, List.foldl_append] using this
  · intro t0 evs t
    have hne := hhttp t0 evs
    unfold runHttp at hne ⊢
    rw [runHttpFrom_append_single, runHttpFrom_append_single]
    refine ⟨?_, by simp [stepHttp], ?_, by simp [stepHttp], ?_⟩
    · show promiseSettle (runHttpFrom (initHttp t0) evs).settled .resolved = some .resolved
      exact promiseSettle_resolved_of_ne _ hne
    · show promiseSettle (runHttpFrom (initHttp t0) evs).settled .resolved = some .resolved
      exact promiseSettle_resolved_of_ne _ hne
    · simp only [stepHttp]
      cases (runHttpFrom (initHttp t0) evs).statusCode <;> simp
  · intro t0 evs t k hk
    have hne := hport t0 evs
    unfold runPort at hne ⊢
    rw [runPortFrom_append_single]
    rcases hk with hk | hk | hk <;> subst hk <;>
      exact ⟨promiseSettle_resolved_of_ne _ hne, by simp [stepPort, portTerminal],
        by simp [stepPort, portTerminal]⟩
  · intro t0 evs t k hk
    have hne := hsmtp t0 evs
    unfold runSmtp at hne ⊢
    rw [runSmtpFrom_append_single]
    rcases hk with hk | hk | hk <;> subst hk <;>
      exact ⟨promiseSettle_resolved_of_ne _ hne, by simp [stepSmtp, smtpTerminal],
        by simp [stepSmtp, smtpTerminal]⟩
  · intro t0 evs t h
    unfold runHttp at h ⊢
    rw [runHttpFrom_append_single]
    simp only [stepHttp]
    rw [h]

/-- Witness for C4 at a concrete probe execution: a fresh http probe that
immediately receives a transport error resolves with `statusCode = 0`. -/
theorem c4_probe_resolution_witness :
    (runHttp (0, 0) []).statusCode = none ∧
    (runHttp (0, 0) ([] ++ [(HttpEvent.errorEv, ((0 : Nat), (5000000 : Nat)))])).statusCode = some 0 :=
  ⟨by decide, c4_probe_resolution.2.2.2.2.2.2.2.2.2 (0, 0) [] (0, 5000000) (by decide)⟩

/-- Invariant of the smtp greeting guard: before the first `220` chunk
nothing has been written, and at any point the writes are at most the single
EHLO line. -/
def SmtpWritesInv (s : SmtpState) : Prop :=
  (s.greeting = false → s.writes = []) ∧ (s.writes = [] ∨ s.writes = [ehloLine])

theorem stepSmtp_writesInv (s : SmtpState) (e : SmtpEvent × Instant)
    (h : SmtpWritesInv s) : SmtpWritesInv (stepSmtp s e) := by
  obtain ⟨hempty, hval⟩ := h
  obtain ⟨k, t⟩ := e
  cases k with
  | dataEv c =>
    simp only [stepSmtp]
    split
    · rename_i hcond
      have hg : s.greeting = false := by
        rcases Bool.and_eq_true_iff.mp hcond with ⟨_, hng⟩
        simpa using hng
      rw [hempty hg]
      exact ⟨fun hc => by simp at hc, Or.inr rfl⟩
    · split
      · exact ⟨hempty, hval⟩
      · exact ⟨hempty, hval⟩
  | lookup => exact ⟨hempty, hval⟩
  | connect => exact ⟨hempty, hval⟩
  | endEv => exact ⟨hempty, hval⟩
  | errorEv => exact ⟨hempty, hval⟩
  | timeoutEv => exact ⟨hempty, hval⟩
  | closeEv => exact ⟨hempty, hval⟩

theorem runSmtpFrom_writesInv (evs : List (SmtpEvent × Instant)) :
    ∀ (s : SmtpState), SmtpWritesInv s → SmtpWritesInv (runSmtpFrom s evs) := by
  induction evs with
  | nil => intro s h; exact h
  | cons e rest ih =>
    intro s h
    exact ih (stepSmtp s e) (stepSmtp_writesInv s e h)

/-- C9: across any smtp probe execution the EHLO line is written at most
once — the only possible write lists are empty or the single EHLO line; a
`data` chunk received with the greeting flag already set writes nothing; the
first `220` chunk with the flag unset writes exactly the EHLO line and sets
the flag; a `250` chunk records the `readable` timestamp and ends the
connection; and the concrete greeting-then-250 exchange finishing with a
clean close yields `statusCode = 0`. -/
theorem c9_smtp_ehlo_once :
    (∀ (t0 : Instant) (evs : List (SmtpEvent × Instant)),
      (runSmtp t0 evs).writes = [] ∨ (runSmtp t0 evs).writes = [ehloLine]) ∧
    (∀ (t0 : Instant) (evs : List (SmtpEvent × Instant)),
      (runSmtp t0 evs).writes.length ≤ 1) ∧
    (∀ (s : SmtpState) (c : String) (t : Instant), s.greeting = true →
      (stepSmtp s (.dataEv c, t)).writes = s.writes ∧
      (stepSmtp s (.dataEv c, t)).greeting = true) ∧
    (∀ (s : SmtpState) (c : String) (t : Instant),
      s.greeting = false → matchesCode "220" c = true →
      (stepSmtp s (.dataEv c, t)).writes = s.writes ++ [ehloLine] ∧
      (stepSmtp s (.dataEv c, t)).greeting = true) ∧
    (∀ (s : SmtpState) (c : String) (t : Instant),
      matchesCode "220" c = false → matchesCode "250" c = true →
      (stepSmtp s (.dataEv c, t)).timings.readable = some t ∧
      (stepSmtp s (.dataEv c, t)).ended = true) ∧
    ((runSmtp (0, 0) [(.dataEv "220 mail.example.com ESMTP", (0, 1)),
        (.dataEv "250 OK", (0, 2)), (.endEv, (0, 3)), (.closeEv, (0, 4))]).statusCode = some 0 ∧
      (runSmtp (0, 0) [(.dataEv "220 mail.example.com ESMTP", (0, 1)),
        (.dataEv "250 OK", (0, 2)), (.endEv, (0, 3)), (.closeEv, (0, 4))]).writes = [ehloLine] ∧
      (runSmtp (0, 0) [(.dataEv "220 mail.example.com ESMTP", (0, 1)),
        (.dataEv "250 OK", (0, 2)), (.endEv, (0, 3)), (.closeEv, (0, 4))]).timings.readable =
          some (0, 2)) := by
  have hinv : ∀ (t0 : Instant) (evs : List (SmtpEvent × Instant)),
      SmtpWritesInv (runSmtp t0 evs) := by
    intro t0 evs
    exact runSmtpFrom_writesInv evs (initSmtp t0) ⟨fun _ => rfl, Or.inl rfl⟩
  refine ⟨?_, ?_, ?_, ?_, ?_, ?_⟩
  · intro t0 evs
    exact (hinv t0 evs).2
  · intro t0 evs
    rcases (hinv t0 evs).2 with h | h <;> rw [h] <;> simp
  · intro s c t hg
    simp only [stepSmtp, hg]
    split
    · rename_i hcond
      rcases Bool.and_eq_true_iff.mp hcond with ⟨_, hng⟩
      simp at hng
    · split
      · exact ⟨rfl, rfl⟩
      · exact ⟨rfl, hg⟩
  · intro s c t hg hc
    simp only [stepSmtp, hg, hc]
    simp
  · intro s c t hc hc'
    simp only [stepSmtp, hc, hc']
    simp
  · refine ⟨by decide, by decide, by decide⟩

/-- Witness for C9 at a concrete smtp state: with the greeting flag set, a
second `220` chunk writes nothing. -/
theorem c9_smtp_ehlo_once_witness :
    (({ greeting := true } : SmtpState)).greeting = true ∧
    (stepSmtp { greeting := true } (.dataEv "220 again", (0, 9))).writes =
      ({ greeting := true } : SmtpState).writes ∧
    (stepSmtp { greeting := true } (.dataEv "220 again", (0, 9))).greeting = true :=
  ⟨rfl, c9_smtp_ehlo_once.2.2.1 { greeting := true } "220 again" (0, 9) rfl⟩

/-- One CloudWatch metric record as assembled in `exports.handler`
(src/index.js 204-219): a metric name, one dimension, a value (possibly
`undefined` for an unknown timing key), an optional unit and the shared
timestamp. -/
structure MetricRecord where
  MetricName : String
  DimensionName : String
  DimensionValue : String
  Value : Option Int
  MetricUnit : Option String := none
  Timestamp : Nat
deriving DecidableEq

/-- A settled probe result as consumed by the metric/incident code. -/
structure ProbeResult where
  name : String
  statusCode : Int
  durations : Durations
deriving DecidableEq

/-- The lookup `result.durations[timing]`: the six interval keys map to
their duration, any other key to `undefined`. -/
def durGet (d : Durations) (k : String) : Option Int :=
  if k = "lookup" then some d.lookup
  else if k = "connect" then some d.connect
  else if k = "secureConnect" then some d.secureConnect
  else if k = "readable" then some d.readable
  else if k = "close" then some d.close
  else if k = "total" then some d.total
  else none

/-- One timing metric (src/index.js 205-213). -/
def timingRecord (ts : Nat) (r : ProbeResult) (timing : String) : MetricRecord :=
  { MetricName := "timing-" ++ timing, DimensionName := r.name,
    DimensionValue := "Timing: " ++ timing, Value := durGet r.durations timing,
    MetricUnit := some "Milliseconds", Timestamp := ts }

/-- The status metric (src/index.js 214-219). -/
def statusRecord (ts : Nat) (r : ProbeResult) : MetricRecord :=
  { MetricName := "status", DimensionName := r.name, DimensionValue := "HTTP Status",
    Value := some r.statusCode, MetricUnit := none, Timestamp := ts }

/-- `event.logTimings || ["readable", "total"]` (src/index.js 203); only an
absent field is falsy, an empty array is truthy. -/
def includedTimings (logTimings : Option (List String)) : List String :=
  match logTimings with
  | some l => l
  | none => ["readable", "total"]

/-- The `metricData` list built by `exports.handler` (src/index.js 204-220):
per result a status record followed by one record per included timing, then
`.reduce((acc, val) => [...acc, ...val], [])`. -/
def buildMetricData (ts : Nat) (results : List ProbeResult)
    (logTimings : Option (List String)) : List MetricRecord :=
  (results.map (fun r =>
    statusRecord ts r :: (includedTimings logTimings).map (timingRecord ts r))).foldl
      (fun acc val => acc ++ val) []

theorem foldl_append_eq_flatten {β : Type} :
    ∀ (L : List (List β)) (acc : List β),
      L.foldl (fun a v => a ++ v) acc = acc ++ L.flatten := by
  intro L
  induction L with
  | nil => intro acc; simp
  | cons g gs ih =>
    intro acc
    simp only [List.foldl_cons, List.flatten_cons]
    rw [ih (acc ++ g)]
    simp

/-- C6: with N probe results and K opted-in timing keys the handler emits
exactly N × (K+1) metric records; omitting `logTimings` is the same as
passing the default `["readable", "total"]` (so K = 2 and 3N records); and
each result's status record carries `Value = statusCode`. -/
theorem c6_metric_record_count :
    (∀ (ts : Nat) (results : List ProbeResult) (lt : List String),
      (buildMetricData ts results (some lt)).length = results.length * (lt.length + 1)) ∧
    (∀ (ts : Nat) (results : List ProbeResult),
      buildMetricData ts results none =
        buildMetricData ts results (some ["readable", "total"])) ∧
    (∀ (ts : Nat) (results : List ProbeResult),
      (buildMetricData ts results none).length = results.length * 3) ∧
    (∀ (ts : Nat) (r : ProbeResult), (statusRecord ts r).Value = some r.statusCode) := by
  have hlen : ∀ (ts : Nat) (lt : Option (List String)) (results : List ProbeResult),
      (buildMetricData ts results lt).length =
        results.length * ((includedTimings lt).length + 1) := by
    intro ts lt results
    unfold buildMetricData
    rw [foldl_append_eq_flatten]
    simp only [List.nil_append]
    induction results with
    | nil => simp
    | cons r rs ih =>
      simp only [List.map_cons, List.flatten_cons, List.length_append, List.length_cons,
        List.length_map, List.length_cons] at ih ⊢
      rw [ih]
      ring
  refine ⟨?_, ?_, ?_, fun ts r => rfl⟩
  · intro ts results lt
    exact hlen ts (some lt) results
  · intro ts results
    rfl
  · intro ts results
    have := hlen ts none results
    simpa [includedTimings] using this

/-- A target as supplied in `event.targets` (src/index.js 181-199). -/
structure Target where
  url : Option String := none
  hostname : Option String := none
  port : Option Nat := none
  name : Option String := none
  type : Option String := none
  component : Option String := none
deriving DecidableEq

/-- One observable step of `exports.handler`'s launch phase: a call of the
Lambda callback, or the launch of one probe. -/
inductive HandlerStep where
  | callbackCall (err : Option String)
  | probeLaunch (t : Target)
deriving DecidableEq

/-- How the synchronous part of `exports.handler` exits. -/
inductive LaunchOutcome where
  | typeError
  | proceeded
deriving DecidableEq

/-- The launch phase of `exports.handler` (src/index.js 177-199):
`if (!targets) callback("No targets given")` has no `return`, so execution
falls through to `targets.map(...)`; on an absent `targets` that member
access throws a TypeError before any probe is created, so the emitted trace
is just the callback call. -/
def handlerLaunch (targets : Option (List Target)) : List HandlerStep × LaunchOutcome :=
  match targets with
  | none => ([.callbackCall (some "No targets given")], .typeError)
  | some ts => (ts.map .probeLaunch, .proceeded)

/-- C7: when the event has no `targets`, the launch phase reports the error
through the callback and launches no probe: the whole observable trace is
the single callback call, so the callback precedes any probe launch and no
probe launch ever occurs. -/
theorem c7_missing_targets (targets : Option (List Target)) (h : targets = none) :
    (handlerLaunch targets).1 = [.callbackCall (some "No targets given")] ∧
    (handlerLaunch targets).2 = .typeError ∧
    ∀ t : Target, HandlerStep.probeLaunch t ∉ (handlerLaunch targets).1 := by
  subst h
  refine ⟨rfl, rfl, ?_⟩
  intro t ht
  simp [handlerLaunch] at ht

/-- Witness for C7 on the empty event. -/
theorem c7_missing_targets_witness :
    (none : Option (List Target)) = none ∧
    (handlerLaunch none).1 = [.callbackCall (some "No targets given")] :=
  ⟨rfl, (c7_missing_targets none rfl).1⟩

/-- An incident from the status page API (src/index.js 96-157). -/
structure Incident where
  incidentID : Nat
  name : String
  status : String
deriving DecidableEq

/-- An action the reconciler issues against the status API: a `POST
incidents` creating one, or a `PATCH incidents/{id}` resolving one. -/
inductive IncidentAction where
  | create (name status message : String)
  | resolve (incidentID : Nat) (status message : String)
deriving DecidableEq

/-- The expected incident name `` `${result.name} - Site Outage` ``. -/
def incidentName (r : ProbeResult) : String := r.name ++ " - Site Outage"

/-- `createIncident` (src/index.js 113-131): POST a new `Identified`
incident only when no open incident already has the expected name. -/
def createIncident (r : ProbeResult) (incidents : List Incident) : List IncidentAction :=
  if (incidents.filter (fun i => i.name = incidentName r)).length = 0 then
    [.create (incidentName r) "Identified"
      (r.name ++ " is currently unavailable (HTTP " ++ toString r.statusCode ++ ").")]
  else []

/-- `resolveIncident` (src/index.js 140-157): PATCH the matching incident to
`Resolved` only when exactly one open incident has the expected name. -/
def resolveIncident (r : ProbeResult) (incidents : List Incident) : List IncidentAction :=
  if (incidents.filter (fun i => i.name = incidentName r)).length = 1 then
    match incidents.filter (fun i => i.name = incidentName r) with
    | i :: _ => [.resolve i.incidentID "Resolved"
        (r.name ++ " is currently operating normally.")]
    | [] => []
  else []

/-- The per-result branch of `exports.handler` (src/index.js 230-234):
`if (result.statusCode !== 200) createIncident(...) else resolveIncident(...)`. -/
def reconcileResult (r : ProbeResult) (incidents : List Incident) : List IncidentAction :=
  if r.statusCode ≠ 200 then createIncident r incidents else resolveIncident r incidents

/-- C8: the reconciler matches open incidents by the exact name
`"<name> - Site Outage"`.  Unhealthy (status ≠ 200) with no match: exactly
one `Identified` create action; unhealthy with a match: no action.  Healthy
(status = 200) with exactly one match: exactly one `Resolved` resolve action
on that incident; healthy with zero or several matches: no action. -/
theorem c8_incident_reconciler (r : ProbeResult) (incidents : List Incident) :
    (r.statusCode ≠ 200 →
      ((incidents.filter (fun i => i.name = incidentName r)).length = 0 →
        reconcileResult r incidents =
          [.create (incidentName r) "Identified"
            (r.name ++ " is currently unavailable (HTTP " ++ toString r.statusCode ++ ").")]) ∧
      ((incidents.filter (fun i => i.name = incidentName r)).length ≠ 0 →
        reconcileResult r incidents = [])) ∧
    (r.statusCode = 200 →
      (∀ i : Incident, incidents.filter (fun j => j.name = incidentName r) = [i] →
        reconcileResult r incidents =
          [.resolve i.incidentID "Resolved" (r.name ++ " is currently operating normally.")]) ∧
      ((incidents.filter (fun i => i.name = incidentName r)).length ≠ 1 →
        reconcileResult r incidents = [])) := by
  constructor
  · intro h
    constructor
    · intro hz
      unfold reconcileResult
      rw [if_pos h]
      unfold createIncident
      rw [if_pos hz]
    · intro hnz
      unfold reconcileResult
      rw [if_pos h]
      unfold createIncident
      rw [if_neg hnz]
  · intro h
    have hnot : ¬ r.statusCode ≠ 200 := by simp [h]
    constructor
    · intro i hfil
      unfold reconcileResult
      rw [if_neg hnot]
      unfold resolveIncident
      rw [hfil]
      rfl
    · intro hne
      unfold reconcileResult
      rw [if_neg hnot]
      unfold resolveIncident
      rw [if_neg hne]

/-- A degraded probe result used to exercise the reconciler. -/
def resultDown : ProbeResult :=
  { name := "X", statusCode := 500, durations := processTimings {} }

/-- Witness for C8: an unhealthy result with no open incidents yields
exactly one `Identified` create action. -/
theorem c8_incident_reconciler_witness :
    resultDown.statusCode ≠ 200 ∧
    (([] : List Incident).filter (fun i => i.name = incidentName resultDown)).length = 0 ∧
    reconcileResult resultDown [] =
      [.create (incidentName resultDown) "Identified"
        (resultDown.name ++ " is currently unavailable (HTTP " ++
          toString resultDown.statusCode ++ ").")] :=
  ⟨by decide, rfl, ((c8_incident_reconciler resultDown []).1 (by decide)).1 rfl⟩

/-- Which entry of the `handlers` table a target is dispatched to. -/
inductive HandlerKind where
  | http
  | port
  | smtp
deriving DecidableEq

/-- The `switch (target.type)` of `exports.handler` (src/index.js 189-198):
`"smtp"` and `"port"` select their handlers, everything else (any other
string, or an absent `type`) falls through to `handlers.http`. -/
def chooseHandler (t : Target) : HandlerKind :=
  match t.type with
  | some s => if s = "smtp" then .smtp else if s = "port" then .port else .http
  | none => .http

/-- JavaScript `a || b` on optional strings: `undefined` and `""` are falsy. -/
def jsOrStr (a b : Option String) : Option String :=
  match a with
  | some s => if s = "" then b else some s
  | none => b

/-- `data.name = target.name || target.url` (src/index.js 183). -/
def probeName (t : Target) : Option String := jsOrStr t.name t.url

/-- C10: a target whose `type` is neither `"port"` nor `"smtp"` (including
an absent or unrecognized value) is dispatched to the HTTP check, and a
target without a `name` gets its `url` as the result name. -/
theorem c10_dispatch_and_name (t : Target) :
    ((t.type ≠ some "port" ∧ t.type ≠ some "smtp") → chooseHandler t = .http) ∧
    (t.name = none → probeName t = t.url) := by
  constructor
  · rintro ⟨h1, h2⟩
    unfold chooseHandler
    cases ht : t.type with
    | none => rfl
    | some s =>
      rw [ht] at h1 h2
      have hs1 : ¬ s = "smtp" := fun he => h2 (by rw [he])
      have hs2 : ¬ s = "port" := fun he => h1 (by rw [he])
      simp [hs1, hs2]
  · intro hn
    unfold probeName jsOrStr
    rw [hn]

/-- Witness for C10 on the empty target (no `type`, no `name`). -/
theorem c10_dispatch_and_name_witness :
    chooseHandler {} = HandlerKind.http ∧ probeName {} = ({} : Target).url :=
  ⟨(c10_dispatch_and_name {}).1 ⟨by decide, by decide⟩,
    (c10_dispatch_and_name {}).2 rfl⟩
